import Mathlib

/-!
Verification of the Concierge chat streaming-reconciliation core of
`raynmakr/cb-future-site`.

The repository carries two near-identical snapshots of the client:

* `src/src/App.tsx` — per-line handling is inlined in `streamConciergeAPI`
  (lines 55–72); a non-empty line that fails `JSON.parse` is forwarded
  verbatim.  This is the raw-text-tolerant handler the design assigns to
  plain-text / newline-delimited-JSON framing.
* `src/unnamed/part_000` — per-line handling lives in the named function
  `extractDeltaFromSSELine` (lines 16–29); a payload that fails `JSON.parse`
  is ignored.  This is the strict extractor the design assigns to
  event-stream framing, and this snapshot also carries the `strict` request
  flag of the external contract.

Both snapshots share `callConciergeAPI` / `handleSend` with identical control
flow.  The embedding below follows `part_000` for the shared reconciler logic
(namespace `Part000`) and embeds the `App.tsx` per-line handler separately
(namespace `AppTsx`).

Modelling conventions:

* `JSON.parse` is embedded as the executable recursive-descent parser
  `jsonParse` below, following the JSON grammar that `JSON.parse` accepts
  (strict numbers, string escapes, no trailing garbage, last duplicate key
  wins).  Values are the inductive `Json`.
* JavaScript strings are Lean `String`s; `TextDecoder` chunk decoding is the
  identity on already-textual chunks.  The regex class `\s` is modelled by
  `isRegexWs` (space, tab, CR, LF, FF, VT) and `trimStr` stands in for
  `String.prototype.trim`.
* `fetch` outcomes, response bodies and the chunking chosen by the transport
  are explicit parameters (`FetchOutcome`, `HttpResponse`,
  `SecondaryOutcome`); a thrown error is `Except.error`.
* React `useState` functional updates are applied in program order to the
  live state, while the `messages` identifier captured by the `handleSend`
  closure keeps the render-time snapshot — in the embedding, the state value
  passed in at the start of the call.
-/

/-- The opening-brace and closing-brace characters, named once so that JSON
text in this file can be written without literal braces. -/
def lbraceChar : Char := Char.ofNat 123

def rbraceChar : Char := Char.ofNat 125

/-- JSON values as produced by `JSON.parse`.  Numbers keep their source
spelling, which is also what the page would render for a non-string reply. -/
inductive Json where
  | null
  | bool (b : Bool)
  | num (raw : String)
  | str (s : String)
  | arr (elems : List Json)
  | obj (fields : List (String × Json))

/-- Property lookup on a parsed value (`evt?.delta` and friends): only
objects have fields, and with a duplicated key `JSON.parse` keeps the last
occurrence, so lookup prefers the rightmost match. -/
def lookupLastField : List (String × Json) → String → Option Json
  | [], _ => none
  | (k, v) :: rest, key =>
    match lookupLastField rest key with
    | some r => some r
    | none => if k = key then some v else none

def Json.getField : Json → String → Option Json
  | Json.obj fields, key => lookupLastField fields key
  | _, _ => none

/-- JSON insignificant whitespace. -/
def isJsonWs (c : Char) : Bool :=
  c = ' ' || c = '\t' || c = '\n' || c = '\r'

def skipWs : List Char → List Char
  | [] => []
  | c :: rest => if isJsonWs c then skipWs rest else c :: rest

def parseHexDigit (c : Char) : Option Nat :=
  if '0' ≤ c ∧ c ≤ '9' then some (c.toNat - '0'.toNat)
  else if 'a' ≤ c ∧ c ≤ 'f' then some (c.toNat - 'a'.toNat + 10)
  else if 'A' ≤ c ∧ c ≤ 'F' then some (c.toNat - 'A'.toNat + 10)
  else none

/-- The single-character string escapes of JSON. -/
def escapeChar (c : Char) : Option Char :=
  if c = '"' then some '"'
  else if c = '\\' then some '\\'
  else if c = '/' then some '/'
  else if c = 'b' then some (Char.ofNat 8)
  else if c = 'f' then some (Char.ofNat 12)
  else if c = 'n' then some '\n'
  else if c = 'r' then some '\r'
  else if c = 't' then some '\t'
  else none

/-- Parse the body of a JSON string after its opening quote; returns the
decoded characters and the input remaining after the closing quote.  Raw
control characters are rejected, as `JSON.parse` rejects them. -/
def parseStringBody : List Char → Option (List Char × List Char)
  | [] => none
  | c :: rest =>
    if c = '"' then some ([], rest)
    else if c = '\\' then
      match rest with
      | [] => none
      | e :: rest2 =>
        if e = 'u' then
          match rest2 with
          | h1 :: h2 :: h3 :: h4 :: rest3 =>
            match parseHexDigit h1, parseHexDigit h2, parseHexDigit h3, parseHexDigit h4 with
            | some a, some b, some c4, some d =>
              match parseStringBody rest3 with
              | some (s, r) => some (Char.ofNat (((a * 16 + b) * 16 + c4) * 16 + d) :: s, r)
              | none => none
            | _, _, _, _ => none
          | _ => none
        else
          match escapeChar e with
          | some ec =>
            match parseStringBody rest2 with
            | some (s, r) => some (ec :: s, r)
            | none => none
          | none => none
    else if c.toNat < 32 then none
    else
      match parseStringBody rest with
      | some (s, r) => some (c :: s, r)
      | none => none

def takeDigits : List Char → List Char × List Char
  | [] => ([], [])
  | c :: rest =>
    if c.isDigit then
      let (ds, r) := takeDigits rest
      (c :: ds, r)
    else ([], c :: rest)

/-- Integer part of a JSON number: `0`, or a nonzero digit followed by
digits (no leading zeros). -/
def parseIntPart : List Char → Option (List Char × List Char)
  | [] => none
  | c :: rest =>
    if c = '0' then some (['0'], rest)
    else if c.isDigit then
      let (ds, r) := takeDigits rest
      some (c :: ds, r)
    else none

/-- Optional fraction part: a dot must be followed by at least one digit. -/
def parseFracPart : List Char → Option (List Char × List Char)
  | '.' :: rest =>
    (match rest with
     | c :: _ =>
       if c.isDigit then
         let (ds, r) := takeDigits rest
         some ('.' :: ds, r)
       else none
     | [] => none)
  | cs => some ([], cs)

/-- Optional exponent part: `e`/`E`, optional sign, at least one digit. -/
def parseExpPart : List Char → Option (List Char × List Char)
  | [] => some ([], [])
  | c :: rest =>
    if c = 'e' ∨ c = 'E' then
      let (sign, rest2) :=
        match rest with
        | s :: r => if s = '+' ∨ s = '-' then ([s], r) else (([] : List Char), s :: r)
        | [] => (([] : List Char), ([] : List Char))
      match rest2 with
      | d :: _ =>
        if d.isDigit then
          let (ds, r) := takeDigits rest2
          some (c :: (sign ++ ds), r)
        else none
      | [] => none
    else some ([], c :: rest)

def parseNumber (cs : List Char) : Option (String × List Char) :=
  let (neg, cs1) :=
    match cs with
    | '-' :: r => ((['-'] : List Char), r)
    | _ => (([] : List Char), cs)
  match parseIntPart cs1 with
  | none => none
  | some (ip, r1) =>
    match parseFracPart r1 with
    | none => none
    | some (fp, r2) =>
      match parseExpPart r2 with
      | none => none
      | some (ep, r3) => some (String.mk (neg ++ ip ++ fp ++ ep), r3)

mutual

/-- Recursive-descent JSON value parser.  The fuel argument bounds nesting
and list length; `jsonParse` supplies ample fuel, so exhaustion never occurs
on inputs whose size fits the fuel (twice the text length suffices). -/
def parseValue : Nat → List Char → Option (Json × List Char)
  | 0, _ => none
  | fuel + 1, cs =>
    match skipWs cs with
    | [] => none
    | c :: rest =>
      if c = '"' then
        match parseStringBody rest with
        | some (s, r) => some (Json.str (String.mk s), r)
        | none => none
      else if c = lbraceChar then
        match skipWs rest with
        | c2 :: r2 =>
          if c2 = rbraceChar then some (Json.obj [], r2)
          else
            match parseMembers fuel (c2 :: r2) with
            | some (fields, r3) =>
              (match skipWs r3 with
               | c4 :: r4 => if c4 = rbraceChar then some (Json.obj fields, r4) else none
               | [] => none)
            | none => none
        | [] => none
      else if c = '[' then
        match skipWs rest with
        | c2 :: r2 =>
          if c2 = ']' then some (Json.arr [], r2)
          else
            match parseElements fuel (c2 :: r2) with
            | some (elems, r3) =>
              (match skipWs r3 with
               | c4 :: r4 => if c4 = ']' then some (Json.arr elems, r4) else none
               | [] => none)
            | none => none
        | [] => none
      else if c = 't' then
        match rest with
        | 'r' :: 'u' :: 'e' :: r => some (Json.bool true, r)
        | _ => none
      else if c = 'f' then
        match rest with
        | 'a' :: 'l' :: 's' :: 'e' :: r => some (Json.bool false, r)
        | _ => none
      else if c = 'n' then
        match rest with
        | 'u' :: 'l' :: 'l' :: r => some (Json.null, r)
        | _ => none
      else if c = '-' ∨ c.isDigit then
        match parseNumber (c :: rest) with
        | some (raw, r) => some (Json.num raw, r)
        | none => none
      else none

/-- Members of a JSON object, at least one, separated by commas. -/
def parseMembers : Nat → List Char → Option (List (String × Json) × List Char)
  | 0, _ => none
  | fuel + 1, cs =>
    match skipWs cs with
    | [] => none
    | c :: rest =>
      if c = '"' then
        match parseStringBody rest with
        | some (k, r1) =>
          (match skipWs r1 with
           | ':' :: r2 =>
             (match parseValue fuel r2 with
              | some (v, r3) =>
                (match skipWs r3 with
                 | ',' :: r4 =>
                   (match parseMembers fuel r4 with
                    | some (fields, r5) => some ((String.mk k, v) :: fields, r5)
                    | none => none)
                 | r4 => some ([(String.mk k, v)], r4))
              | none => none)
           | _ => none)
        | none => none
      else none

/-- Elements of a JSON array, at least one, separated by commas. -/
def parseElements : Nat → List Char → Option (List Json × List Char)
  | 0, _ => none
  | fuel + 1, cs =>
    match parseValue fuel cs with
    | some (v, r1) =>
      (match skipWs r1 with
       | ',' :: r2 =>
         (match parseElements fuel r2 with
          | some (elems, r3) => some (v :: elems, r3)
          | none => none)
       | r2 => some ([v], r2))
    | none => none

end

/-- The embedding of `JSON.parse`: parse one value and require that only
whitespace remains; any other input (including the empty string, bare words,
or a literal end-marker token) yields `none`, which in the source is the
thrown `SyntaxError` caught by the surrounding `try`. -/
def jsonParse (s : String) : Option Json :=
  match parseValue (2 * s.length + 2) s.toList with
  | some (j, rest) => if skipWs rest = [] then some j else none
  | none => none

/-- Substring test, the embedding of `String.prototype.includes`. -/
def containsSubstr (s pat : String) : Bool :=
  (List.range (s.length + 1)).any fun i => (s.drop i).take pat.length = pat

/-- `res.ok`: HTTP status in the 200–299 range. -/
def statusOk (status : Nat) : Bool :=
  200 ≤ status && status < 300

/-- The content-type test of both snapshots: the declared kind is streaming
when it mentions any of the three streaming kinds. -/
def isStreamingContentType (ct : String) : Bool :=
  containsSubstr ct "text/event-stream" || containsSubstr ct "text/plain" ||
    containsSubstr ct "application/x-ndjson"

/-- The character class `\s` of the source regexes, at its ASCII core — the
same set `String.prototype.trim` strips. -/
def isRegexWs (c : Char) : Bool :=
  c = ' ' || c = '\t' || c = '\n' || c = '\r' || c = Char.ofNat 12 || c = Char.ofNat 11

def dropLeadingWs : List Char → List Char
  | [] => []
  | c :: rest => if isRegexWs c then dropLeadingWs rest else c :: rest

/-- The embedding of `String.prototype.trim`: strip whitespace from both
ends. -/
def trimStr (s : String) : String :=
  String.mk (List.reverse (dropLeadingWs (List.reverse (dropLeadingWs s.toList))))

/-- Drop one leading whitespace character if present: the `\s?` of
`/^data:\s?/`. -/
def dropOneWs (s : String) : String :=
  match s.toList with
  | c :: _ => if isRegexWs c then s.drop 1 else s
  | [] => s

def lowerStr (s : String) : String :=
  String.mk (s.toList.map Char.toLower)

/-- `/^data:/i.test(line)`: the line starts with `data:` in any letter case
(`part_000` line 17). -/
def hasDataTagCI (line : String) : Bool :=
  lowerStr (line.take 5) = "data:"

/-- `line.replace(/^data:\s?/i, "")` (`part_000` line 18): strip a
case-insensitive `data:` marker and at most one following whitespace
character. -/
def stripDataTagCI (line : String) : String :=
  if hasDataTagCI line then dropOneWs (line.drop 5) else line

/-- `extractDeltaFromSSELine` of `src/unnamed/part_000` lines 16–29: parse a
single event-stream line and return a text delta, or `none`.  Lines without
the `data:` marker are ignored; an empty payload or the literal `[DONE]`
end marker yields `none`; a payload that parses to a record with a
string-valued `delta` (preferred) or `text` field yields that string; any
payload that fails to parse is ignored, never raw-forwarded. -/
def extractDeltaFromSSELine (line : String) : Option String :=
  if hasDataTagCI line = false then none
  else
    let payload := trimStr (stripDataTagCI line)
    if payload = "" then none
    else if payload = "[DONE]" then none
    else
      match jsonParse payload with
      | some evt =>
        (match evt.getField "delta" with
         | some (Json.str d) => some d
         | _ =>
           match evt.getField "text" with
           | some (Json.str t) => some t
           | _ => none)
      | none => none

/-- `buffer.split(/\r?\n/)` followed by `lines.pop() || ""` (`part_000`
lines 98–99): split on `\n` or `\r\n` (a lone `\r` is not a terminator) and
return the complete lines together with the trailing fragment. -/
def splitKeepLastAux : List Char → List Char → List String × String
  | [], acc => ([], String.mk acc.reverse)
  | '\r' :: '\n' :: rest, acc =>
    let (ls, tail) := splitKeepLastAux rest []
    (String.mk acc.reverse :: ls, tail)
  | '\n' :: rest, acc =>
    let (ls, tail) := splitKeepLastAux rest []
    (String.mk acc.reverse :: ls, tail)
  | c :: rest, acc => splitKeepLastAux rest (c :: acc)

def splitKeepLast (s : String) : List String × String :=
  splitKeepLastAux s.toList []

/-- The mutable locals of the streaming read loop of
`Part000.streamConciergeAPI`: the pending line fragment, the final-text
accumulator, and the deltas reported to `onDelta` so far, in order. -/
structure StreamLoopState where
  buffer : String
  final : String
  deltas : List String

def initLoopState : StreamLoopState := ⟨"", "", []⟩

/-- One iteration of `for (const raw of lines)` (`part_000` lines 100–106):
extract a delta from the line; `if (delta)` accepts it only when it is
non-null and non-empty, appending it to the accumulator and reporting it. -/
def handleStreamLine (st : StreamLoopState) (raw : String) : StreamLoopState :=
  match extractDeltaFromSSELine raw with
  | some d =>
    if d = "" then st
    else { st with final := st.final ++ d, deltas := st.deltas ++ [d] }
  | none => st

/-- One network read (`part_000` lines 95–106): append the chunk to the
pending buffer, split off the complete lines, retain the trailing fragment,
and process each complete line. -/
def feedChunk (st : StreamLoopState) (chunk : String) : StreamLoopState :=
  let (lines, rest) := splitKeepLast (st.buffer ++ chunk)
  lines.foldl handleStreamLine { st with buffer := rest }

/-- The whole read loop over the transport's chunk sequence. -/
def streamBody (chunks : List String) : StreamLoopState :=
  chunks.foldl feedChunk initLoopState

/-- End-of-data tail handling (`part_000` lines 108–113): the retained
fragment is put through the extractor once; only a payload that yields a
(non-empty) delta is flushed, anything else is discarded. -/
def finishStream (st : StreamLoopState) : StreamLoopState :=
  match extractDeltaFromSSELine st.buffer with
  | some t =>
    if t = "" then st
    else { st with final := st.final ++ t, deltas := st.deltas ++ [t] }
  | none => st

/-- A response as the client observes it: status, declared content type, and
the body as the chunk sequence the transport delivers.  `res.json()` reads
the concatenation of the chunks. -/
structure HttpResponse where
  status : Nat
  contentType : String
  chunks : List String

def bodyText (resp : HttpResponse) : String :=
  String.join resp.chunks

/-- A `fetch` either resolves to a response or rejects (network error). -/
inductive FetchOutcome where
  | netError
  | response (resp : HttpResponse)

/-- The value `streamConciergeAPI` resolves to:
`{ final: string; sources?: string[] }`.  On every streaming content kind
the source returns `{ final }`, so `sources` can only be set by the
non-streaming JSON branch. -/
structure StreamResult where
  final : String
  sources : Option (List Json)

/-- `data?.reply ?? ""` on the parsed body of a non-streaming response.
`??` substitutes the empty string only for a missing or null field; a
string field passes through, and a number or boolean would reach the page
as its rendered text (an array or object is not renderable text and is
mapped to the empty string, a corner no observable behaviour depends on). -/
def jsReplyField (data : Json) : String :=
  match data.getField "reply" with
  | some (Json.str s) => s
  | some Json.null => ""
  | some (Json.num raw) => raw
  | some (Json.bool b) => if b then "true" else "false"
  | some _ => ""
  | none => ""

/-- `Array.isArray(data?.sources) ? data.sources : undefined`. -/
def jsSourcesArray (data : Json) : Option (List Json) :=
  match data.getField "sources" with
  | some (Json.arr xs) => some xs
  | _ => none

namespace Part000

/-- `streamConciergeAPI` of `src/unnamed/part_000` lines 76–120, as a
function of the fetch outcome.  A rejected fetch or a non-success status
throws (`Except.error`).  A streaming content kind drives the read loop and
the end-of-data flush and resolves to the reported deltas (the `onDelta`
invocations, in order) and `{ final }` with no sources.  Any other kind
parses the whole body as JSON — a parse failure is the `res.json()`
rejection — and resolves to zero deltas and the reply/sources fields. -/
def streamConciergeAPI (f : FetchOutcome) :
    Except Unit (List String × StreamResult) :=
  match f with
  | .netError => .error ()
  | .response resp =>
    if statusOk resp.status = false then .error ()
    else if isStreamingContentType resp.contentType then
      let st := finishStream (streamBody resp.chunks)
      .ok (st.deltas, ⟨st.final, none⟩)
    else
      match jsonParse (bodyText resp) with
      | none => .error ()
      | some data => .ok ([], ⟨jsReplyField data, jsSourcesArray data⟩)

/-- The outcome of the secondary, non-streaming `fetch` inside
`callConciergeAPI`: rejection, or a response with a status and a body
text. -/
inductive SecondaryOutcome where
  | netError
  | response (status : Nat) (body : String)

/-- The fixed offline advisory reply of `part_000` line 72. -/
def demoReply : String :=
  "(demo) Ready to assist. Connect the backend for real replies."

/-- `callConciergeAPI` of `src/unnamed/part_000` lines 57–74.  The whole
body sits in a `try`: a rejected fetch, a non-success status, an unparsable
body, or a body whose `reply` is not a string all fall to the `catch`,
which resolves to the fixed advisory reply with no sources; on success it
resolves to the reply and the raw `sources` field. -/
def callConciergeAPI (o : SecondaryOutcome) : String × Option Json :=
  match o with
  | .netError => (demoReply, none)
  | .response status body =>
    if statusOk status = false then (demoReply, none)
    else
      match jsonParse body with
      | none => (demoReply, none)
      | some data =>
        match data.getField "reply" with
        | some (Json.str r) => (r, data.getField "sources")
        | _ => (demoReply, none)

end Part000

inductive Role where
  | user
  | assistant
  | system
deriving DecidableEq

/-- The `ChatMessage` record of both snapshots.  `sources` holds the raw
value assigned in the source: `undefined` is `none`, and an assigned value
is kept as the JSON it came from. -/
structure ChatMessage where
  id : Nat
  role : Role
  content : String
  sources : Option Json

/-- The component state `handleSend` touches: the input box, the transcript,
and the in-flight flag. -/
structure ChatState where
  input : String
  messages : List ChatMessage
  loading : Bool

/-- The outcome of one `handleSend` call: the state it leaves behind, and
whether the secondary non-streaming request was issued. -/
structure SendResult where
  state : ChatState
  secondaryCalled : Bool

/-- A `setMessages(m => m.map(msg => msg.id === botId ? ... : msg))`
functional update. -/
def updateMessage (msgs : List ChatMessage) (mid : Nat)
    (f : ChatMessage → ChatMessage) : List ChatMessage :=
  msgs.map fun m => if m.id = mid then f m else m

namespace Part000

/-- `handleSend` of `src/unnamed/part_000` lines 122–165.  `uid` and `botId`
are the two fresh `crypto.randomUUID()` tokens.  The guard rejects an empty
trimmed input or an in-flight exchange.  On acceptance the user message and
the empty assistant placeholder are appended and the stream session runs:
each reported delta is appended to the placeholder; with no delta, a
non-empty final text replaces the content; a present `sources` is attached.
The "still empty" check then reads `messages.find((m) => m.id === botId)` —
`messages` being the render-time snapshot captured by the closure, i.e. the
transcript as it stood before this call appended anything — and when it
finds no non-empty placeholder there, issues the secondary call, whose
reply and sources overwrite the placeholder.  A thrown stream session also
resolves through the secondary call.  `finally` clears the flag. -/
def handleSend (stream : FetchOutcome) (secondary : SecondaryOutcome)
    (uid botId : Nat) (s : ChatState) : SendResult :=
  let text := trimStr s.input
  if text = "" ∨ s.loading then ⟨s, false⟩
  else
    let msgs1 := s.messages ++ [⟨uid, .user, text, none⟩]
    let msgs2 := msgs1 ++ [⟨botId, .assistant, "", none⟩]
    match streamConciergeAPI stream with
    | .error _ =>
      let (reply, srcs) := callConciergeAPI secondary
      let msgs3 := updateMessage msgs2 botId fun m =>
        { m with content := reply, sources := srcs }
      ⟨⟨"", msgs3, false⟩, true⟩
    | .ok (deltas, result) =>
      let msgs3 := deltas.foldl
        (fun ms d => updateMessage ms botId fun m =>
          { m with content := m.content ++ d })
        msgs2
      let msgs4 :=
        if deltas.isEmpty ∧ result.final ≠ "" then
          updateMessage msgs3 botId fun m => { m with content := result.final }
        else msgs3
      let msgs5 :=
        match result.sources with
        | some xs =>
          updateMessage msgs4 botId fun m =>
            { m with sources := some (Json.arr xs) }
        | none => msgs4
      let staleCurrent := s.messages.find? fun m => decide (m.id = botId)
      let stillEmpty : Bool :=
        match staleCurrent with
        | none => true
        | some m => decide (m.content = "")
      if deltas.isEmpty ∧ stillEmpty then
        let (reply, srcs) := callConciergeAPI secondary
        let msgs6 := updateMessage msgs5 botId fun m =>
          { m with content := reply, sources := srcs }
        ⟨⟨"", msgs6, false⟩, true⟩
      else ⟨⟨"", msgs5, false⟩, false⟩

end Part000

namespace AppTsx

/-- `line.replace(/^data:\s?/, "")` of `src/src/App.tsx` line 56: the same
stripping, but case-sensitive. -/
def stripDataTag (line : String) : String :=
  if line.take 5 = "data:" then dropOneWs (line.drop 5) else line

/-- The per-line handling inlined in `streamConciergeAPI` of
`src/src/App.tsx` lines 55–71, as the delta it forwards for one decoded
line: strip an optional `data:` marker, skip an empty remainder, take the
string-valued `delta` (else `text`) field of a parsed record — and when
parsing fails, forward the remainder verbatim. -/
def processStreamLine (line : String) : Option String :=
  let trimmed := stripDataTag line
  if trimmed = "" then none
  else
    match jsonParse trimmed with
    | some evt =>
      (match evt.getField "delta" with
       | some (Json.str d) => some d
       | _ =>
         match evt.getField "text" with
         | some (Json.str t) => some t
         | _ => none)
    | none => some trimmed

end AppTsx

/-- A string that is a complete, well-formed `data:` protocol line: it
carries the `data:` marker and its trimmed payload parses as JSON. -/
def isCompleteDataLine (l : String) : Bool :=
  hasDataTagCI l && (jsonParse (trimStr (stripDataTagCI l))).isSome

/-- Whatever delta the extractor yields came from a complete, well-formed
`data:` line. -/
theorem extract_some_isComplete (l t : String)
    (h : extractDeltaFromSSELine l = some t) : isCompleteDataLine l = true := by
  simp only [extractDeltaFromSSELine] at h
  split at h
  · cases h
  · next h1 =>
    split at h
    · cases h
    · split at h
      · cases h
      · cases h4 : jsonParse (trimStr (stripDataTagCI l)) with
        | none => rw [h4] at h; cases h
        | some evt =>
          have hb : hasDataTagCI l = true := by
            cases hc : hasDataTagCI l
            · exact absurd hc h1
            · rfl
          simp [isCompleteDataLine, hb, h4]

/-- Splitting a functional transcript update over an append. -/
theorem updateMessage_append (xs ys : List ChatMessage) (mid : Nat)
    (f : ChatMessage → ChatMessage) :
    updateMessage (xs ++ ys) mid f =
      updateMessage xs mid f ++ updateMessage ys mid f := by
  simp [updateMessage]

/-- A functional transcript update keyed to an id nothing in the list
carries leaves the list unchanged. -/
theorem updateMessage_of_not_mem (xs : List ChatMessage) (mid : Nat)
    (f : ChatMessage → ChatMessage) (h : ∀ m ∈ xs, m.id ≠ mid) :
    updateMessage xs mid f = xs := by
  induction xs with
  | nil => rfl
  | cons a tl ih =>
    have ha : a.id ≠ mid := h a (List.mem_cons_self a tl)
    have htl : updateMessage tl mid f = tl :=
      ih fun m hm => h m (List.mem_cons_of_mem a hm)
    simp only [updateMessage, List.map_cons, if_neg ha] at *
    rw [htl]

/-- End-to-end scenario B's response: a success status, content kind
`application/json` (none of the streaming kinds), and the JSON body
carrying a reply and one citation. -/
def scenarioBResponse : HttpResponse :=
  ⟨200, "application/json",
   ["\x7b\"reply\":\"Hello\",\"sources\":[\"doc1.pdf\"]\x7d"]⟩

/-- Claim C1 (refuted — code bug).  The claim says the secondary
non-streaming call is issued only when no delta was observed and the
placeholder's content is still empty, and that in scenario B no secondary
request is made and the placeholder keeps content "Hello" and sources
["doc1.pdf"].  The stream session indeed yields zero deltas, final text
"Hello" and sources ["doc1.pdf"] (first conjunct), and `handleSend` first
sets the placeholder accordingly — but its "still empty" test reads
`messages.find((m) => m.id === botId)` on the render-time snapshot, which
never contains the freshly created placeholder, so whenever no delta was
observed the secondary call is issued anyway (second conjunct), and its
result overwrites both content and sources (third conjunct, evaluated with
a failing secondary call: the advisory reply replaces "Hello"). -/
theorem C1_scenarioB_secondary_call_fires_anyway :
    Part000.streamConciergeAPI (.response scenarioBResponse) =
      .ok ([], ⟨"Hello", some [Json.str "doc1.pdf"]⟩) ∧
    (Part000.handleSend (.response scenarioBResponse)
        .netError 0 1 ⟨"Hi", [], false⟩).secondaryCalled = true ∧
    (Part000.handleSend (.response scenarioBResponse)
        .netError 0 1 ⟨"Hi", [], false⟩).state.messages =
      [⟨0, .user, "Hi", none⟩, ⟨1, .assistant, Part000.demoReply, none⟩] :=
  ⟨rfl, rfl, rfl⟩

/-- End-to-end scenario A's response: an event-stream body carrying two
deltas and the end marker. -/
def scenarioAResponse : HttpResponse :=
  ⟨200, "text/event-stream",
   ["data: \x7b\"delta\":\"Riyadh \"\x7d\n\n",
    "data: \x7b\"delta\":\"is a hub.\"\x7d\n\n",
    "data: [DONE]\n\n"]⟩

/-- Claim C2: for the input "Tell me about Riyadh" with the event-stream
response of scenario A, the per-delta callback is invoked exactly twice,
with "Riyadh " then "is a hub.", and the final assistant message content is
exactly "Riyadh is a hub." (and the end marker contributes nothing and no
secondary call is made). -/
theorem C2_scenarioA_two_deltas_exact_content :
    Part000.streamConciergeAPI (.response scenarioAResponse) =
      .ok (["Riyadh ", "is a hub."], ⟨"Riyadh is a hub.", none⟩) ∧
    Part000.handleSend (.response scenarioAResponse) .netError 0 1
        ⟨"Tell me about Riyadh", [], false⟩ =
      ⟨⟨"", [⟨0, .user, "Tell me about Riyadh", none⟩,
             ⟨1, .assistant, "Riyadh is a hub.", none⟩], false⟩, false⟩ :=
  ⟨rfl, rfl⟩

/-- Claim C3: in event-stream framing, a `data:` line whose payload fails
JSON parsing yields no content from the extractor — it is never forwarded
as a delta, and processing it leaves the stream loop's accumulated text and
reported deltas untouched, so it never reaches the transcript. -/
theorem C3_event_stream_non_json_yields_no_content :
    ∀ line : String, hasDataTagCI line = true →
      jsonParse (trimStr (stripDataTagCI line)) = none →
      extractDeltaFromSSELine line = none ∧
        ∀ st : StreamLoopState, handleStreamLine st line = st := by
  intro line h1 h2
  have hx : extractDeltaFromSSELine line = none := by
    by_cases hp : trimStr (stripDataTagCI line) = ""
    · simp [extractDeltaFromSSELine, h1, hp]
    · by_cases hd : trimStr (stripDataTagCI line) = "[DONE]"
      · simp [extractDeltaFromSSELine, h1, hp, hd]
      · simp [extractDeltaFromSSELine, h1, hp, hd, h2]
  exact ⟨hx, fun st => by simp [handleStreamLine, hx]⟩

theorem C3_witness :
    hasDataTagCI "data: oops" = true ∧
    jsonParse (trimStr (stripDataTagCI "data: oops")) = none ∧
    (extractDeltaFromSSELine "data: oops" = none ∧
      ∀ st : StreamLoopState, handleStreamLine st "data: oops" = st) :=
  ⟨rfl, rfl, C3_event_stream_non_json_yields_no_content "data: oops" rfl rfl⟩

/-- Claim C4: in the raw-text-tolerant per-line handler (the plain-text /
NDJSON behaviour, `App.tsx` lines 55–71), every line whose remainder after
stripping an optional `data:` marker is non-empty and fails JSON parsing is
forwarded verbatim as the delta. -/
theorem C4_plain_framing_non_json_forwarded_verbatim :
    ∀ line : String, AppTsx.stripDataTag line ≠ "" →
      jsonParse (AppTsx.stripDataTag line) = none →
      AppTsx.processStreamLine line = some (AppTsx.stripDataTag line) := by
  intro line h1 h2
  simp [AppTsx.processStreamLine, h1, h2]

theorem C4_witness :
    AppTsx.stripDataTag "hello" ≠ "" ∧
    jsonParse (AppTsx.stripDataTag "hello") = none ∧
    AppTsx.processStreamLine "hello" = some (AppTsx.stripDataTag "hello") :=
  ⟨by decide, rfl,
   C4_plain_framing_non_json_forwarded_verbatim "hello" (by decide) rfl⟩

/-- Claim C5: in event-stream framing, a `data:` line whose payload is the
literal end marker `[DONE]` is recognized before JSON parsing and yields no
delta: it is never treated as text and processing it leaves the stream
loop's accumulated text and reported deltas untouched, so nothing of it is
appended to the assistant message. -/
theorem C5_done_marker_never_a_delta :
    ∀ line : String, hasDataTagCI line = true →
      trimStr (stripDataTagCI line) = "[DONE]" →
      extractDeltaFromSSELine line = none ∧
        ∀ st : StreamLoopState, handleStreamLine st line = st := by
  intro line h1 h2
  have hx : extractDeltaFromSSELine line = none := by
    simp [extractDeltaFromSSELine, h1, h2]
  exact ⟨hx, fun st => by simp [handleStreamLine, hx]⟩

theorem C5_witness :
    hasDataTagCI "data: [DONE]" = true ∧
    trimStr (stripDataTagCI "data: [DONE]") = "[DONE]" ∧
    (extractDeltaFromSSELine "data: [DONE]" = none ∧
      ∀ st : StreamLoopState, handleStreamLine st "data: [DONE]" = st) :=
  ⟨rfl, rfl, C5_done_marker_never_a_delta "data: [DONE]" rfl rfl⟩

/-- Claim C6: calling send with empty or whitespace-only text, or while a
prior exchange is in flight, is a no-op: the whole state — transcript
included — is returned unchanged and no secondary call is made, so no
user/assistant pair is appended. -/
theorem C6_rejected_send_is_noop :
    ∀ (stream : FetchOutcome) (secondary : Part000.SecondaryOutcome)
      (uid botId : Nat) (s : ChatState),
      trimStr s.input = "" ∨ s.loading = true →
      Part000.handleSend stream secondary uid botId s = ⟨s, false⟩ := by
  intro stream secondary uid botId s h
  rcases h with h | h
  · simp [Part000.handleSend, h]
  · simp [Part000.handleSend, h]

theorem C6_witness :
    (trimStr "   " = "" ∨ false = true) ∧
    Part000.handleSend .netError .netError 0 1
        ⟨"   ", [⟨9, .user, "x", none⟩], false⟩ =
      ⟨⟨"   ", [⟨9, .user, "x", none⟩], false⟩, false⟩ :=
  ⟨Or.inl rfl,
   C6_rejected_send_is_noop .netError .netError 0 1
     ⟨"   ", [⟨9, .user, "x", none⟩], false⟩ (Or.inl rfl)⟩

/-- Claim C9: the in-flight flag is cleared on every exit path of send.
Whatever the stream session and the secondary call do — success, fallback
or thrown error — an invocation entered with the flag clear terminates with
the flag clear, so a subsequent send is never permanently blocked. -/
theorem C9_loading_cleared_on_every_exit :
    ∀ (stream : FetchOutcome) (secondary : Part000.SecondaryOutcome)
      (uid botId : Nat) (s : ChatState),
      s.loading = false →
      (Part000.handleSend stream secondary uid botId s).state.loading = false := by
  intro stream secondary uid botId s h
  by_cases hc : trimStr s.input = "" ∨ s.loading = true
  · rcases hc with hc | hc
    · simp [Part000.handleSend, hc, h]
    · rw [h] at hc; cases hc
  · cases hstream : Part000.streamConciergeAPI stream with
    | error e => simp [Part000.handleSend, hc, hstream]
    | ok pr =>
      obtain ⟨deltas, result⟩ := pr
      simp only [Part000.handleSend, hstream]
      rw [if_neg hc]
      split <;> split <;> rfl

theorem C9_witness :
    (⟨"hi", [], false⟩ : ChatState).loading = false ∧
    (Part000.handleSend .netError .netError 0 1
        ⟨"hi", [], false⟩).state.loading = false :=
  ⟨rfl, C9_loading_cleared_on_every_exit .netError .netError 0 1
    ⟨"hi", [], false⟩ rfl⟩

/-- The ways the secondary non-streaming call can fail: network rejection,
a non-success status, or a body that is unparsable or lacks a string-valued
reply. -/
def secondaryFailed (o : Part000.SecondaryOutcome) : Prop :=
  match o with
  | .netError => True
  | .response status body =>
    statusOk status = false ∨ jsonParse body = none ∨
      ∃ j, jsonParse body = some j ∧
        ∀ r : String, j.getField "reply" ≠ some (Json.str r)

/-- The failing secondary call resolves — never throws — to the fixed
advisory reply with no sources. -/
theorem callConciergeAPI_failed (o : Part000.SecondaryOutcome)
    (h : secondaryFailed o) :
    Part000.callConciergeAPI o = (Part000.demoReply, none) := by
  cases o with
  | netError => rfl
  | response status body =>
    show (if statusOk status = false then (Part000.demoReply, none)
      else
        match jsonParse body with
        | none => (Part000.demoReply, none)
        | some data =>
          match data.getField "reply" with
          | some (Json.str r) => (r, data.getField "sources")
          | _ => (Part000.demoReply, none)) = (Part000.demoReply, none)
    rcases h with hs | hp | ⟨j, hj, hr⟩
    · rw [if_pos hs]
    · by_cases hs : statusOk status = false
      · rw [if_pos hs]
      · rw [if_neg hs, hp]
    · by_cases hs : statusOk status = false
      · rw [if_pos hs]
      · rw [if_neg hs, hj]
        show (match j.getField "reply" with
          | some (Json.str r) => (r, j.getField "sources")
          | _ => (Part000.demoReply, none)) = (Part000.demoReply, none)
        cases hg : j.getField "reply" with
        | none => rfl
        | some v =>
          cases v with
          | str r => exact absurd hg (hr r)
          | null => rfl
          | bool b => rfl
          | num raw => rfl
          | arr xs => rfl
          | obj fs => rfl

/-- Claim C7: when the streaming request fails (thrown fetch, non-success
status, or unparsable non-streaming body) and the secondary non-streaming
request also fails for any reason, the placeholder's content is set to the
fixed hard-coded advisory message and its sources remain unset, the
in-flight flag still clears, and the offline tier itself never throws: the
secondary call resolves to the advisory pair on every failing outcome. -/
theorem C7_total_failure_yields_offline_advisory :
    ∀ (o : Part000.SecondaryOutcome) (stream : FetchOutcome) (s : ChatState)
      (uid botId : Nat),
      secondaryFailed o →
      Part000.streamConciergeAPI stream = .error () →
      trimStr s.input ≠ "" → s.loading = false →
      (∀ m ∈ s.messages, m.id ≠ botId) → uid ≠ botId →
      (Part000.handleSend stream o uid botId s).state.messages =
          s.messages ++ [⟨uid, .user, trimStr s.input, none⟩,
                         ⟨botId, .assistant, Part000.demoReply, none⟩] ∧
        (Part000.handleSend stream o uid botId s).state.loading = false ∧
        Part000.callConciergeAPI o = (Part000.demoReply, none) := by
  intro o stream s uid botId hfail hstream hne hload hfresh hub
  have hcall := callConciergeAPI_failed o hfail
  have hcond : ¬(trimStr s.input = "" ∨ s.loading = true) := by
    simp [hne, hload]
  refine ⟨?_, ?_, hcall⟩
  · simp only [Part000.handleSend, hstream, hcall, if_neg hcond]
    rw [updateMessage_append, updateMessage_append,
      updateMessage_of_not_mem s.messages botId _ hfresh]
    simp [updateMessage, hub]
  · simp only [Part000.handleSend, hstream, hcall, if_neg hcond]

theorem C7_witness :
    secondaryFailed (.response 502 "") ∧
    Part000.streamConciergeAPI .netError = .error () ∧
    (Part000.handleSend .netError (.response 502 "") 0 1
        ⟨"hi", [], false⟩).state.messages =
      [⟨0, .user, trimStr "hi", none⟩,
       ⟨1, .assistant, Part000.demoReply, none⟩] ∧
    (Part000.handleSend .netError (.response 502 "") 0 1
        ⟨"hi", [], false⟩).state.loading = false ∧
    Part000.callConciergeAPI (.response 502 "") = (Part000.demoReply, none) := by
  have h := C7_total_failure_yields_offline_advisory (.response 502 "")
    .netError ⟨"hi", [], false⟩ 0 1 (Or.inl (by decide)) rfl (by decide) rfl
    (by intro m hm; cases hm) (by decide)
  exact ⟨Or.inl (by decide), rfl, by simpa using h.1, h.2.1, h.2.2⟩

/-- Claim C8: at end-of-data the retained final fragment is flushed only if
it is a complete, well-formed `data:` protocol line (its payload parses);
otherwise it is discarded — the flush changes neither the accumulated text
nor the reported deltas, so a malformed fragment never reaches the
extractor's output or the transcript. -/
theorem C8_tail_flushed_only_if_complete_line :
    ∀ chunks : List String,
      (isCompleteDataLine (streamBody chunks).buffer = false →
        finishStream (streamBody chunks) = streamBody chunks) ∧
      ((finishStream (streamBody chunks)).deltas ≠ (streamBody chunks).deltas →
        isCompleteDataLine (streamBody chunks).buffer = true) := by
  intro chunks
  constructor
  · intro hc
    cases hext : extractDeltaFromSSELine (streamBody chunks).buffer with
    | none => unfold finishStream; rw [hext]
    | some t =>
      rw [extract_some_isComplete _ _ hext] at hc
      cases hc
  · intro hne
    cases hext : extractDeltaFromSSELine (streamBody chunks).buffer with
    | none =>
      exfalso
      apply hne
      unfold finishStream
      rw [hext]
    | some t => exact extract_some_isComplete _ _ hext

theorem C8_witness :
    isCompleteDataLine (streamBody ["data: oops"]).buffer = false ∧
    finishStream (streamBody ["data: oops"]) = streamBody ["data: oops"] :=
  ⟨rfl, (C8_tail_flushed_only_if_complete_line ["data: oops"]).1 rfl⟩

/-- Claim C10: for every response whose declared content kind is one of the
three streaming kinds, the result of the stream session has its sources
field unset, whatever the stream's payloads carried; only the non-streaming
JSON branch (or the secondary call) can ever attach citations. -/
theorem C10_streaming_result_never_has_sources :
    ∀ (resp : HttpResponse) (deltas : List String) (r : StreamResult),
      isStreamingContentType resp.contentType = true →
      Part000.streamConciergeAPI (.response resp) = .ok (deltas, r) →
      r.sources = none := by
  intro resp deltas r h1 h2
  have hrfl : Part000.streamConciergeAPI (.response resp) =
      (if statusOk resp.status = false then
        (Except.error () : Except Unit (List String × StreamResult))
      else if isStreamingContentType resp.contentType = true then
        Except.ok ((finishStream (streamBody resp.chunks)).deltas,
          ⟨(finishStream (streamBody resp.chunks)).final, none⟩)
      else
        match jsonParse (bodyText resp) with
        | none => Except.error ()
        | some data =>
          Except.ok ([], ⟨jsReplyField data, jsSourcesArray data⟩)) := rfl
  rw [hrfl] at h2
  by_cases hs : statusOk resp.status = false
  · rw [if_pos hs] at h2
    cases h2
  · rw [if_neg hs, if_pos h1] at h2
    injection h2 with h3
    exact (congrArg (fun p => p.2.sources) h3).symm

theorem C10_witness :
    isStreamingContentType "text/event-stream" = true ∧
    Part000.streamConciergeAPI
        (.response ⟨200, "text/event-stream",
          ["data: \x7b\"delta\":\"x\",\"sources\":[\"a\"]\x7d\n"]⟩) =
      .ok (["x"], ⟨"x", none⟩) ∧
    (⟨"x", none⟩ : StreamResult).sources = none :=
  ⟨rfl, rfl,
   C10_streaming_result_never_has_sources
     ⟨200, "text/event-stream", ["data: \x7b\"delta\":\"x\",\"sources\":[\"a\"]\x7d\n"]⟩
     ["x"] ⟨"x", none⟩ rfl rfl⟩
